import Mathlib

/-!
Verification development for the summarizely news backend.

This file gives a shallow embedding, in Lean 4, of the parts of the backend
that the specification's testable properties talk about:

* `src/services/redisService.js` — the vector-similarity search
  (`vectorSearchSimilarNews`), the personalized feed (`getPersonalizedNews`,
  `filterReadArticles`, `updateUserPreferences`, `clearPersonalizedCache`),
  the multi-strategy rank fusion (`combineAndRankSimilarity`), the cosine
  helper (`calculateCosineSimilarity`) and trending (`getTrendingArticles`).
* `src/controllers/newsController.js` — the preference store/update handlers.
* `src/services/cacheClearService.js` — `clearAllCacheExceptUser`.

Modelling conventions:

* The Redis keyspace is an association list `Store := List (String × RVal)`;
  `redis.keys(pattern)` glob matching is modelled by literal-prefix matching
  (all patterns in the source are either literal keys or `literal*`).
* JavaScript numbers are modelled as `ℚ` (scores, thresholds, growth rates);
  the only irrational arithmetic in the sources is `Math.sqrt`, which is
  modelled with `Real.sqrt`.
* The external RediSearch engine is modelled by an environment that yields,
  for a search text, the KNN candidate documents; the query clauses the code
  builds (`-@article_id:{id}` exclusion) are applied as documented filters.
* `md5(JSON.stringify(preferences))` is modelled as a perfect (injective)
  digest: the version tag is represented by the preference list itself.
  Collision freedom of the digest is the standard idealization.
* In JavaScript, later `function` declarations shadow earlier ones in the
  same file; `redisService.js` declares `updateUserPreferences` and
  `clearPersonalizedCache` twice, so the second declarations (lines 851 and
  940) are the effective ones and are the ones embedded here.
-/

namespace Summarizely

/-! ### List sorting helper

`Array.prototype.sort` with a numeric comparator `(a, b) => g b - g a`
produces a list sorted descending by the key `g`, a permutation of the
input.  We model it with an insertion sort and prove the membership and
sortedness facts used below. -/

/-- Insert `x` into `l` keeping `l` sorted descending by the key `f`. -/
def insertDescBy {α β : Type} [LinearOrder β] (f : α → β) (x : α) : List α → List α
  | [] => [x]
  | y :: ys => if f y < f x then x :: y :: ys else y :: insertDescBy f x ys

/-- Sort a list descending by the key `f` (models a JS comparator sort). -/
def sortDescBy {α β : Type} [LinearOrder β] (f : α → β) : List α → List α
  | [] => []
  | x :: xs => insertDescBy f x (sortDescBy f xs)

theorem mem_insertDescBy {α β : Type} [LinearOrder β] (f : α → β) (x a : α)
    (l : List α) : a ∈ insertDescBy f x l ↔ a = x ∨ a ∈ l := by
  induction l with
  | nil => simp [insertDescBy]
  | cons y ys ih =>
    by_cases h : f y < f x
    · simp [insertDescBy, h]
    · simp only [insertDescBy, if_neg h, List.mem_cons, ih]
      tauto

theorem mem_sortDescBy {α β : Type} [LinearOrder β] (f : α → β) (a : α)
    (l : List α) : a ∈ sortDescBy f l ↔ a ∈ l := by
  induction l with
  | nil => simp [sortDescBy]
  | cons x xs ih => simp [sortDescBy, mem_insertDescBy, ih]

theorem sorted_insertDescBy {α β : Type} [LinearOrder β] (f : α → β) (x : α)
    (l : List α) (h : List.Sorted (fun a b => f b ≤ f a) l) :
    List.Sorted (fun a b => f b ≤ f a) (insertDescBy f x l) := by
  induction l with
  | nil => simp [insertDescBy]
  | cons y ys ih =>
    rw [List.sorted_cons] at h
    by_cases hxy : f y < f x
    · rw [insertDescBy, if_pos hxy, List.sorted_cons]
      refine ⟨?_, List.sorted_cons.mpr h⟩
      intro b hb
      rcases List.mem_cons.mp hb with rfl | hb
      · exact le_of_lt hxy
      · exact le_trans (h.1 b hb) (le_of_lt hxy)
    · rw [insertDescBy, if_neg hxy, List.sorted_cons]
      refine ⟨?_, ih h.2⟩
      intro b hb
      rcases (mem_insertDescBy f x b ys).mp hb with rfl | hb
      · exact le_of_not_lt hxy
      · exact h.1 b hb

theorem sorted_sortDescBy {α β : Type} [LinearOrder β] (f : α → β)
    (l : List α) : List.Sorted (fun a b => f b ≤ f a) (sortDescBy f l) := by
  induction l with
  | nil => simp [sortDescBy]
  | cons x xs ih => exact sorted_insertDescBy f x _ ih

theorem length_insertDescBy {α β : Type} [LinearOrder β] (f : α → β) (x : α)
    (l : List α) : (insertDescBy f x l).length = l.length + 1 := by
  induction l with
  | nil => rfl
  | cons y ys ih =>
    rw [insertDescBy]
    by_cases h : f y < f x
    · rw [if_pos h, List.length_cons, List.length_cons]
    · rw [if_neg h, List.length_cons, ih, List.length_cons]

theorem length_sortDescBy {α β : Type} [LinearOrder β] (f : α → β)
    (l : List α) : (sortDescBy f l).length = l.length := by
  induction l with
  | nil => rfl
  | cons x xs ih =>
    rw [sortDescBy, length_insertDescBy, ih, List.length_cons]

/-! ### Vector similarity search (`vectorSearchSimilarNews`)

`redisService.js` lines 100-206.  The function builds a KNN query against
the RediSearch index (optionally with a `-@article_id:{excludeId}` clause),
then keeps only candidates whose similarity `1 - vector_score` reaches the
given `threshold`, sorts them by similarity descending, and truncates to
`limit`. -/

/-- A document as returned by `redis.ft.search` for the KNN query: its
`article_id` tag and its `vector_score` (cosine distance).  A missing
`vector_score` makes `parseFloat(doc.value.vector_score || 1)` evaluate
to `1`, which is the `Option.getD 1` below. -/
structure SearchDoc where
  article_id : String
  vector_score : Option ℚ
  deriving DecidableEq, Repr

/-- An entry of the `similarArticles` list built by
`vectorSearchSimilarNews`: the candidate id together with its computed
similarity (the other copied document fields are irrelevant to the claims
and omitted). -/
structure ScoredArticle where
  id : String
  similarity : ℚ
  deriving DecidableEq, Repr

/-- The RediSearch engine's response to the KNN query built by
`vectorSearchSimilarNews`: `knn` is the candidate list for the query
vector (already in the engine's distance order), and the
`-@article_id:{excludeId}` clause removes every document carrying the
excluded tag; `LIMIT` keeps at most `limit * 2` candidates. -/
def ftKnnCandidates (knn : List SearchDoc) (limit : ℕ)
    (excludeId : Option String) : List SearchDoc :=
  (knn.filter fun d =>
    match excludeId with
    | some e => d.article_id ≠ e
    | none => true).take (limit * 2)

/-- Shallow embedding of `vectorSearchSimilarNews` (redisService.js
lines 100-206): threshold-filter the KNN candidates, sort by similarity
descending, and keep the first `limit`. -/
def vectorSearchSimilarNews (knn : List SearchDoc) (limit : ℕ)
    (threshold : ℚ) (excludeId : Option String) : List ScoredArticle :=
  let docs := ftKnnCandidates knn limit excludeId
  let similarArticles := docs.filterMap fun d =>
    let score := d.vector_score.getD 1
    let similarity := 1 - score
    if threshold ≤ similarity then some ⟨d.article_id, similarity⟩ else none
  (sortDescBy (·.similarity) similarArticles).take limit

theorem mem_vectorSearchSimilarNews {knn : List SearchDoc} {limit : ℕ}
    {threshold : ℚ} {excludeId : Option String} {a : ScoredArticle}
    (h : a ∈ vectorSearchSimilarNews knn limit threshold excludeId) :
    threshold ≤ a.similarity ∧
      ∃ d ∈ ftKnnCandidates knn limit excludeId,
        a.id = d.article_id ∧ a.similarity = 1 - d.vector_score.getD 1 := by
  have h1 := List.mem_of_mem_take h
  rw [mem_sortDescBy] at h1
  rcases List.mem_filterMap.mp h1 with ⟨d, hd, hmk⟩
  by_cases hth : threshold ≤ 1 - d.vector_score.getD 1
  · rw [if_pos hth] at hmk
    cases hmk
    exact ⟨hth, d, hd, rfl, rfl⟩
  · rw [if_neg hth] at hmk
    cases hmk

theorem vectorSearchSimilarNews_excludes {knn : List SearchDoc} {limit : ℕ}
    {threshold : ℚ} {e : String} {a : ScoredArticle}
    (h : a ∈ vectorSearchSimilarNews knn limit threshold (some e)) :
    a.id ≠ e := by
  rcases (mem_vectorSearchSimilarNews h).2 with ⟨d, hd, hid, -⟩
  have hfil := List.of_mem_filter (show d ∈ _ from List.mem_of_mem_take hd)
  simp only [decide_eq_true_eq] at hfil
  rw [hid]
  exact hfil

/-! ### Redis keyspace model

An association list from key strings to stored values.  Lookup returns the
first binding; `SET`/`JSON.SET` replaces the first binding or appends;
pattern deletion (`redis.keys(pattern)` followed by `redis.del`) removes
every binding whose key matches. -/

/-- An article entry of a personalized feed (cached or freshly computed):
its id, the vector similarity it was found with, and the `final_score`
used for ranking.  General (non-personalized) top-up articles carry no
similarity in the source; they are modelled with similarity `0`. -/
structure FeedArticle where
  id : String
  similarity : ℚ
  final_score : ℚ
  deriving DecidableEq, Repr

/-- Values stored in the keyspace, classified by how the embedded code
reads them.  `versionTag` holds the preference-version digest
`md5(JSON.stringify(preferences))`, modelled as a perfect digest and hence
represented by the preference list itself.  `other` stands for any value
the embedded operations never read. -/
inductive RVal where
  | prefsDoc (preferences : List String)
  | feedEnvelope (results : List FeedArticle)
  | versionTag (tag : List String)
  | readSetVal (ids : List String)
  | other
  deriving DecidableEq

/-- The Redis keyspace. -/
def Store : Type := List (String × RVal)

instance : DecidableEq Store := by unfold Store; infer_instance

/-- First-match lookup (GET / JSON.GET). -/
def lookupStore : Store → String → Option RVal
  | [], _ => none
  | e :: es, k => if e.1 = k then some e.2 else lookupStore es k

/-- SET / JSON.SET: replace the first binding of the key, or append one. -/
def setStore : Store → String → RVal → Store
  | [], k, v => [(k, v)]
  | e :: es, k, v => if e.1 = k then (k, v) :: es else e :: setStore es k v

/-- Delete every binding whose key satisfies `p`
(`redis.del(await redis.keys(pattern))`). -/
def deleteKeys (s : Store) (p : String → Bool) : Store :=
  s.filter fun e => !p e.1

/-- The keys currently present in the store. -/
def storeKeys (s : Store) : List String := s.map (·.1)

theorem lookupStore_setStore_self (s : Store) (k : String) (v : RVal) :
    lookupStore (setStore s k v) k = some v := by
  induction s with
  | nil => simp [setStore, lookupStore]
  | cons e es ih =>
    by_cases h : e.1 = k
    · simp [setStore, h, lookupStore]
    · simp [setStore, h, lookupStore, ih]

theorem lookupStore_setStore_ne (s : Store) (k k' : String) (v : RVal)
    (h : k' ≠ k) : lookupStore (setStore s k v) k' = lookupStore s k' := by
  have hkk : ¬ (k = k') := fun hh => h hh.symm
  induction s with
  | nil =>
    show (if k = k' then some v else none) = none
    rw [if_neg hkk]
  | cons e es ih =>
    by_cases he : e.1 = k
    · rw [setStore, if_pos he]
      show (if k = k' then some v else lookupStore es k') = _
      rw [if_neg hkk, lookupStore, he, if_neg hkk]
    · rw [setStore, if_neg he, lookupStore, lookupStore]
      by_cases he' : e.1 = k'
      · rw [if_pos he', if_pos he']
      · rw [if_neg he', if_neg he', ih]

theorem lookupStore_deleteKeys (s : Store) (p : String → Bool) (k : String) :
    lookupStore (deleteKeys s p) k =
      if p k then none else lookupStore s k := by
  induction s with
  | nil =>
    show (none : Option RVal) = if p k then none else none
    rw [ite_self]
  | cons e es ih =>
    rw [deleteKeys, List.filter_cons]
    by_cases hp : p e.1
    · rw [if_neg (by simp [hp])]
      by_cases hek : e.1 = k
      · subst hek
        rw [← deleteKeys, ih, if_pos hp, if_pos hp]
      · rw [← deleteKeys, ih]
        by_cases hpk : p k
        · rw [if_pos hpk, if_pos hpk]
        · rw [if_neg hpk, if_neg hpk, lookupStore, if_neg hek]
    · rw [if_pos (by simp [hp])]
      by_cases hek : e.1 = k
      · subst hek
        rw [lookupStore, if_pos rfl, if_neg hp, lookupStore, if_pos rfl]
      · rw [lookupStore, if_neg hek, ← deleteKeys, ih]
        by_cases hpk : p k
        · rw [if_pos hpk, if_pos hpk]
        · rw [if_neg hpk, if_neg hpk, lookupStore, if_neg hek]

theorem mem_storeKeys_deleteKeys (s : Store) (p : String → Bool) (k : String) :
    k ∈ storeKeys (deleteKeys s p) ↔ k ∈ storeKeys s ∧ p k = false := by
  induction s with
  | nil => simp [deleteKeys, storeKeys]
  | cons e es ih =>
    rw [deleteKeys, List.filter_cons]
    by_cases hp : p e.1
    · rw [if_neg (by simp [hp]), ← deleteKeys]
      rw [show storeKeys (e :: es) = e.1 :: storeKeys es from rfl]
      rw [ih, List.mem_cons]
      constructor
      · rintro ⟨hm, hf⟩
        exact ⟨Or.inr hm, hf⟩
      · rintro ⟨hm | hm, hf⟩
        · subst hm; rw [hp] at hf; cases hf
        · exact ⟨hm, hf⟩
    · rw [if_pos (by simp [hp])]
      rw [show storeKeys (e :: List.filter (fun e => !p e.1) es) =
            e.1 :: storeKeys (List.filter (fun e => !p e.1) es) from rfl]
      rw [show storeKeys (e :: es) = e.1 :: storeKeys es from rfl]
      rw [List.mem_cons, List.mem_cons, show
        (List.filter (fun e => !p e.1) es : Store) = deleteKeys es p from rfl, ih]
      constructor
      · rintro (hm | ⟨hm, hf⟩)
        · subst hm
          exact ⟨Or.inl rfl, by rw [Bool.eq_false_iff]; exact hp⟩
        · exact ⟨Or.inr hm, hf⟩
      · rintro ⟨hm | hm, hf⟩
        · exact Or.inl hm
        · exact Or.inr ⟨hm, hf⟩

theorem mem_storeKeys_setStore (s : Store) (k k' : String) (v : RVal) :
    k' ∈ storeKeys (setStore s k v) ↔ k' = k ∨ k' ∈ storeKeys s := by
  induction s with
  | nil => simp [setStore, storeKeys]
  | cons e es ih =>
    by_cases he : e.1 = k
    · rw [setStore, if_pos he]
      rw [show storeKeys ((k, v) :: es) = k :: storeKeys es from rfl]
      rw [show storeKeys (e :: es) = e.1 :: storeKeys es from rfl, he]
      simp only [List.mem_cons]
      tauto
    · rw [setStore, if_neg he]
      rw [show storeKeys (e :: setStore es k v) =
            e.1 :: storeKeys (setStore es k v) from rfl]
      rw [show storeKeys (e :: es) = e.1 :: storeKeys es from rfl]
      simp only [List.mem_cons, ih]
      tauto

/-! ### Key layout and glob matching

Key builders, copied from the code that constructs them
(redisService.js lines 209, 249, 321-322, 561). -/

/-- Glob match for a pattern of the shape `p*`: the key starts with the
literal `p`.  Every pattern in the embedded code is of this shape or is a
bare literal. -/
def strStartsWith (p k : String) : Bool := p.data.isPrefixOf k.data

theorem strStartsWith_iff (p k : String) :
    strStartsWith p k = true ↔ p.data <+: k.data :=
  List.isPrefixOf_iff_prefix

/-- Key of the stored user-preferences document. -/
def userPrefsKey (u : String) : String := "user:" ++ u ++ ":preferences"

/-- Key of the per-user read sorted set. -/
def readSetKey (u : String) : String := "user:" ++ u ++ ":read_set"

/-- Cache key of the personalized feed (`getPersonalizedNews`). -/
def feedCacheKey (u : String) (limit offset : ℕ) : String :=
  "personalized_simple:" ++ u ++ ":" ++ toString limit ++ ":" ++ toString offset

/-- Preference-version guard key used by `getPersonalizedNews`. -/
def prefsVersionSimpleKey (u : String) : String :=
  "prefs_version_simple:" ++ u

/-- Cache key of the personalized search (`getPersonalizedNewsSearch`). -/
def searchCacheKey (u hash : String) (limit offset : ℕ) : String :=
  "personalized_search_simple:" ++ u ++ ":" ++ hash ++ ":" ++
    toString limit ++ ":" ++ toString offset

/-! ### Preference update and cache invalidation

`redisService.js` declares `clearPersonalizedCache` twice (lines 768 and
940) and `updateUserPreferences` twice (lines 226 and 851).  JavaScript
function-declaration hoisting makes the second declaration of each the one
every call site uses, so the embedded `clearPersonalizedCache` is the
line-940 version: for a given user it deletes the keys matching
`personalized:{u}:*`, `personalized_meta:{u}`, `prefs_version:{u}`,
`fallback:{u}:*` and `personalized_fallback:{u}` (options defaulted:
`clearStats = false`, `clearFallbacks = true`; the LRU `zRem` touches only
members inside the `personalized_cache_lru` value, not keys). -/

/-- A key matches one of the deletion patterns of the effective
`clearPersonalizedCache(userId)` (redisService.js lines 944-964). -/
def clearPersonalizedCacheMatches (u k : String) : Bool :=
  strStartsWith ("personalized:" ++ u ++ ":") k ||
  k = "personalized_meta:" ++ u ||
  k = "prefs_version:" ++ u ||
  strStartsWith ("fallback:" ++ u ++ ":") k ||
  k = "personalized_fallback:" ++ u

/-- Shallow embedding of the effective `clearPersonalizedCache(userId)`
(redisService.js lines 940-1019, per-user branch, default options). -/
def clearPersonalizedCache (u : String) (s : Store) : Store :=
  deleteKeys s (clearPersonalizedCacheMatches u)

/-- Shallow embedding of `storeUserPreferences` (redisService.js
lines 208-216); the document's timestamp fields are not modelled. -/
def storeUserPreferences (u : String) (prefs : List String) (s : Store) :
    Store :=
  setStore s (userPrefsKey u) (.prefsDoc prefs)

/-- Shallow embedding of the effective `updateUserPreferences`
(redisService.js lines 851-873): store the new preference list (both the
exists and the not-exists branch leave the document holding `prefs`), then
run `clearPersonalizedCache(userId)`. -/
def updateUserPreferences (u : String) (prefs : List String) (s : Store) :
    Store :=
  clearPersonalizedCache u (storeUserPreferences u prefs s)

/-! ### Prefix incompatibility

Two literals neither of which is a prefix of the other can never both be
prefixes of the same key; this is the engine behind every
"this pattern does not touch that namespace" fact below. -/

theorem no_common_extension {a b k : List Char}
    (hab : ¬ a <+: b) (hba : ¬ b <+: a)
    (ha : a <+: k) (hb : b <+: k) : False := by
  rcases List.prefix_or_prefix_of_prefix ha hb with h | h
  · exact hab h
  · exact hba h

/-- Incompatibility of two literal namespaces: neither is a prefix of the
other (checked by `decide` at use sites). -/
def Incompat (a b : String) : Prop :=
  ¬ (a.data <+: b.data) ∧ ¬ (b.data <+: a.data)

instance (a b : String) : Decidable (Incompat a b) := by
  unfold Incompat; infer_instance

theorem clearPersonalizedCacheMatches_eq_false (u k b : String)
    (hbk : b.data <+: k.data)
    (h1 : Incompat b "personalized:")
    (h2 : Incompat b "personalized_meta:")
    (h3 : Incompat b "prefs_version:")
    (h4 : Incompat b "fallback:")
    (h5 : Incompat b "personalized_fallback:") :
    clearPersonalizedCacheMatches u k = false := by
  rw [Bool.eq_false_iff]
  intro htrue
  rw [clearPersonalizedCacheMatches] at htrue
  simp only [Bool.or_eq_true, decide_eq_true_eq] at htrue
  rcases htrue with ((((h | h) | h) | h) | h)
  · have hpk : "personalized:".data <+: k.data := by
      refine List.IsPrefix.trans ?_ ((strStartsWith_iff _ _).mp h)
      rw [show "personalized:" ++ u ++ ":" = "personalized:" ++ (u ++ ":") from
        String.append_assoc .. , String.data_append]
      exact List.prefix_append _ _
    exact no_common_extension h1.2 h1.1 hpk hbk
  · have hpk : "personalized_meta:".data <+: k.data := by
      rw [h, String.data_append]
      exact List.prefix_append _ _
    exact no_common_extension h2.2 h2.1 hpk hbk
  · have hpk : "prefs_version:".data <+: k.data := by
      rw [h, String.data_append]
      exact List.prefix_append _ _
    exact no_common_extension h3.2 h3.1 hpk hbk
  · have hpk : "fallback:".data <+: k.data := by
      refine List.IsPrefix.trans ?_ ((strStartsWith_iff _ _).mp h)
      rw [show "fallback:" ++ u ++ ":" = "fallback:" ++ (u ++ ":") from
        String.append_assoc .. , String.data_append]
      exact List.prefix_append _ _
    exact no_common_extension h4.2 h4.1 hpk hbk
  · have hpk : "personalized_fallback:".data <+: k.data := by
      rw [h, String.data_append]
      exact List.prefix_append _ _
    exact no_common_extension h5.2 h5.1 hpk hbk

theorem data_prefix_of_append (a rest : String) :
    a.data <+: (a ++ rest).data := by
  rw [String.data_append]
  exact List.prefix_append _ _

/-- The namespaces the personalized feed and search actually write
(`personalized_simple:{u}:*`, `personalized_search_simple:{u}:*`,
`prefs_version_simple:{u}`), as key predicates. -/
def isEnginePersonalizedKey (u k : String) : Prop :=
  strStartsWith ("personalized_simple:" ++ u ++ ":") k = true ∨
  strStartsWith ("personalized_search_simple:" ++ u ++ ":") k = true ∨
  k = prefsVersionSimpleKey u

instance (u k : String) : Decidable (isEnginePersonalizedKey u k) := by
  unfold isEnginePersonalizedKey; infer_instance

theorem enginePersonalizedKey_not_cleared (u k : String)
    (h : isEnginePersonalizedKey u k) :
    clearPersonalizedCacheMatches u k = false := by
  rcases h with h | h | h
  · refine clearPersonalizedCacheMatches_eq_false u k "personalized_simple:"
      (List.IsPrefix.trans ?_ ((strStartsWith_iff _ _).mp h))
      (by decide) (by decide) (by decide) (by decide) (by decide)
    rw [show "personalized_simple:" ++ u ++ ":" =
        "personalized_simple:" ++ (u ++ ":") from String.append_assoc ..]
    exact data_prefix_of_append _ _
  · refine clearPersonalizedCacheMatches_eq_false u k
      "personalized_search_simple:"
      (List.IsPrefix.trans ?_ ((strStartsWith_iff _ _).mp h))
      (by decide) (by decide) (by decide) (by decide) (by decide)
    rw [show "personalized_search_simple:" ++ u ++ ":" =
        "personalized_search_simple:" ++ (u ++ ":") from String.append_assoc ..]
    exact data_prefix_of_append _ _
  · refine clearPersonalizedCacheMatches_eq_false u k "prefs_version_simple:"
      ?_ (by decide) (by decide) (by decide) (by decide) (by decide)
    rw [h, prefsVersionSimpleKey]
    exact data_prefix_of_append _ _

theorem userNamespace_not_cleared (u k : String)
    (h : strStartsWith "user:" k = true) :
    clearPersonalizedCacheMatches u k = false :=
  clearPersonalizedCacheMatches_eq_false u k "user:"
    ((strStartsWith_iff _ _).mp h)
    (by decide) (by decide) (by decide) (by decide) (by decide)

/-- Concrete keyspace for exercising `updateUserPreferences`: a cached
personalized feed envelope, a cached personalized search result, the
preference-version guard, and the stored preferences of user `u1`. -/
def c1Store : Store :=
  [(feedCacheKey "u1" 10 0, .feedEnvelope []),
   (searchCacheKey "u1" "abc" 10 0, .other),
   (prefsVersionSimpleKey "u1", .versionTag ["tech"]),
   (userPrefsKey "u1", .prefsDoc ["tech"])]

/-- C1, counterexample: `updateUserPreferences("u1", ["sports"])` leaves the
`(personalized, u1, *)` cache key, the `(personalized_search, u1, *)` cache
key and the preference-version key all present in the store, contradicting
the claim that after the call none of those keys remain.  (The effective
`clearPersonalizedCache` deletes the `personalized:{u}:*` /
`prefs_version:{u}` namespaces, which the feed and search code never
write.) -/
theorem claim_C1_counterexample :
    feedCacheKey "u1" 10 0 ∈
        storeKeys (updateUserPreferences "u1" ["sports"] c1Store) ∧
    searchCacheKey "u1" "abc" 10 0 ∈
        storeKeys (updateUserPreferences "u1" ["sports"] c1Store) ∧
    prefsVersionSimpleKey "u1" ∈
        storeKeys (updateUserPreferences "u1" ["sports"] c1Store) ∧
    strStartsWith ("personalized_simple:" ++ "u1" ++ ":")
        (feedCacheKey "u1" 10 0) = true ∧
    strStartsWith ("personalized_search_simple:" ++ "u1" ++ ":")
        (searchCacheKey "u1" "abc" 10 0) = true := by
  decide

/-- C1, amended: a completed `updateUserPreferences(userId, newPrefs)`
deletes exactly the keys matching `personalized:{userId}:*`,
`personalized_meta:{userId}`, `prefs_version:{userId}`,
`fallback:{userId}:*` or `personalized_fallback:{userId}`; every key of the
namespaces the feed and search caches actually use
(`personalized_simple:{userId}:*`, `personalized_search_simple:{userId}:*`,
`prefs_version_simple:{userId}`) survives the call. -/
theorem claim_C1_update_invalidation_amended (u : String)
    (prefs : List String) (s : Store) :
    (∀ k, k ∈ storeKeys s →
      k ∉ storeKeys (updateUserPreferences u prefs s) →
      clearPersonalizedCacheMatches u k = true) ∧
    (∀ k, clearPersonalizedCacheMatches u k = true →
      k ∉ storeKeys (updateUserPreferences u prefs s)) ∧
    (∀ k, k ∈ storeKeys s → isEnginePersonalizedKey u k →
      k ∈ storeKeys (updateUserPreferences u prefs s)) := by
  refine ⟨?_, ?_, ?_⟩
  · intro k hk hnot
    by_contra hmatch
    rw [Bool.not_eq_true, Bool.eq_false_iff] at hmatch
    apply hnot
    rw [updateUserPreferences, clearPersonalizedCache,
      mem_storeKeys_deleteKeys]
    refine ⟨?_, by rw [Bool.eq_false_iff]; exact hmatch⟩
    rw [storeUserPreferences, mem_storeKeys_setStore]
    exact Or.inr hk
  · intro k hmatch hmem
    rw [updateUserPreferences, clearPersonalizedCache,
      mem_storeKeys_deleteKeys] at hmem
    rw [hmatch] at hmem
    cases hmem.2
  · intro k hk hengine
    rw [updateUserPreferences, clearPersonalizedCache,
      mem_storeKeys_deleteKeys]
    refine ⟨?_, enginePersonalizedKey_not_cleared u k hengine⟩
    rw [storeUserPreferences, mem_storeKeys_setStore]
    exact Or.inr hk

/-- Witness for C1's amended theorem on a concrete store: the surviving
feed-cache key of `c1Store`. -/
theorem claim_C1_amended_witness :
    feedCacheKey "u1" 10 0 ∈
      storeKeys (updateUserPreferences "u1" ["sports"] c1Store) :=
  (claim_C1_update_invalidation_amended "u1" ["sports"] c1Store).2.2
    (feedCacheKey "u1" 10 0) (by decide) (by decide)

/-! ### Personalized feed (`getPersonalizedNews`)

redisService.js lines 312-546.  The external collaborators — the vector
index reached through `vectorSearchSimilarNews` (whose KNN candidates
depend on the embedding of the search text) and `getAllArticles` — are
abstracted into an environment.  The `mainFails` flag models the `try`
block throwing, which sends the call into the `catch` fallback (the inner
fallback of the `catch` is assumed to succeed).  Response fields not
consulted by any claim (`personalizedCount`, `preferencesProcessed`,
`cacheStats`) are omitted, as are the hit/miss statistics counters. -/

/-- The environment of a `getPersonalizedNews` call. -/
structure Env where
  knn : String → List SearchDoc
  generalArticles : List FeedArticle
  mainFails : Bool

/-- Shallow embedding of `getUserPreferences` (redisService.js
lines 219-223), projected to the preference list. -/
def getUserPreferences (s : Store) (u : String) : Option (List String) :=
  match lookupStore s (userPrefsKey u) with
  | some (.prefsDoc p) => some p
  | _ => none

/-- Shallow embedding of `getUserReadArticles` (redisService.js
lines 264-270): the member list of the per-user read sorted set, `[]` if
the userId is falsy or the key is absent. -/
def getUserReadArticles (s : Store) (u : String) : List String :=
  if u = "" then []
  else
    match lookupStore s (readSetKey u) with
    | some (.readSetVal ids) => ids
    | _ => []

/-- Shallow embedding of `filterReadArticles` (redisService.js
lines 273-281). -/
def filterReadArticles (s : Store) (u : String)
    (articles : List FeedArticle) : List FeedArticle :=
  if u = "" then articles
  else if articles = [] then articles
  else if getUserReadArticles s u = [] then articles
  else articles.filter fun a => !(getUserReadArticles s u).contains a.id

/-- The stored feed-cache envelope for `(u, limit, offset)`
(`cachedData?.results` of the cache probe). -/
def getFeedEnvelope (s : Store) (u : String) (limit offset : ℕ) :
    Option (List FeedArticle) :=
  match lookupStore s (feedCacheKey u limit offset) with
  | some (.feedEnvelope results) => some results
  | _ => none

/-- The stored preference-version guard for `u`. -/
def getPrefsVersion (s : Store) (u : String) : Option (List String) :=
  match lookupStore s (prefsVersionSimpleKey u) with
  | some (.versionTag t) => some t
  | _ => none

/-- The comparison `prefsVersion === currentPrefsHash` of the cache probe:
`prefsVersion` is `null` when the guard key is absent and
`currentPrefsHash` is the literal string `"none"` when the user has no
stored preferences; neither equals a stored digest, and two digests agree
exactly when the preference lists do (perfect-digest idealization). -/
def versionMatches (ver prefs : Option (List String)) : Bool :=
  match ver, prefs with
  | some v, some p => v = p
  | _, _ => false

/-- JavaScript `list.slice(offset, offset + limit)`. -/
def jsSlice (l : List FeedArticle) (offset limit : ℕ) : List FeedArticle :=
  (l.drop offset).take limit

/-- The per-preference dedup-merge loop body (redisService.js
lines 420-431): append each vector result whose id is unseen, decorated
with `final_score = similarity * preferenceWeight`, threading the `seen`
set. -/
def addVectorArticles (w : ℚ) :
    List ScoredArticle → List String → List FeedArticle × List String
  | [], seen => ([], seen)
  | a :: rest, seen =>
    if seen.contains a.id then addVectorArticles w rest seen
    else
      let r := addVectorArticles w rest (a.id :: seen)
      (⟨a.id, a.similarity, a.similarity * w⟩ :: r.1, r.2)

/-- The outer loop over preferences (redisService.js lines 404-438):
preference `i` is searched with threshold `0.4` and weight `1 - 0.1·i`,
and its unseen results are appended. -/
def collectPreferenceResults (env : Env) (n : ℕ) :
    ℕ → List String → List String → List FeedArticle
  | _, [], _ => []
  | i, pref :: rest, seen =>
    let vres := vectorSearchSimilarNews (env.knn pref) n (2/5) none
    let r := addVectorArticles (1 - (i : ℚ) / 10) vres seen
    r.1 ++ collectPreferenceResults env n (i + 1) rest r.2

/-- The feed response envelope (fields consulted by the claims). -/
structure FeedResponse where
  articles : List FeedArticle
  totalCount : ℕ
  cached : Bool
  fallback : Bool
  filteredReadCount : ℕ
  deriving DecidableEq, Repr

/-- The cache probe of `getPersonalizedNews` (redisService.js
lines 326-339): skipped under `forceRefresh`; a stored envelope is trusted
only when the stored preference-version digest equals the digest of the
current preferences. -/
def cacheProbe (s : Store) (u : String) (limit offset : ℕ)
    (forceRefresh : Bool) : Option (List FeedArticle) :=
  if forceRefresh then none
  else
    match getFeedEnvelope s u limit offset with
    | some results =>
      if versionMatches (getPrefsVersion s u) (getUserPreferences s u)
      then some results else none
    | none => none

/-- The cache-hit branch (redisService.js lines 340-367): the 30%-filtered
refresh check present in the sources is commented out there, so the branch
always returns the read-filtered slice with `cached: true`. -/
def personalizedCacheHit (s : Store) (u : String) (limit offset : ℕ)
    (results : List FeedArticle) : FeedResponse :=
  { articles := jsSlice (filterReadArticles s u results) offset limit,
    totalCount := (filterReadArticles s u results).length,
    cached := true, fallback := false,
    filteredReadCount :=
      results.length - (filterReadArticles s u results).length }

/-- The no-preferences fallback (redisService.js lines 382-394). -/
def personalizedNoPrefs (env : Env) (s : Store) (u : String)
    (limit offset : ℕ) : FeedResponse :=
  { articles := jsSlice
      (filterReadArticles s u (env.generalArticles.take (limit + offset + 20)))
      offset limit,
    totalCount :=
      (filterReadArticles s u
        (env.generalArticles.take (limit + offset + 20))).length,
    cached := false, fallback := true,
    filteredReadCount :=
      (env.generalArticles.take (limit + offset + 20)).length -
        (filterReadArticles s u
          (env.generalArticles.take (limit + offset + 20))).length }

/-- The `catch` fallback (redisService.js lines 521-545, outer fallback). -/
def personalizedErrorFallback (env : Env) (s : Store) (u : String)
    (limit offset : ℕ) : FeedResponse :=
  { articles := jsSlice
      (filterReadArticles s u (env.generalArticles.take (limit + offset + 10)))
      offset limit,
    totalCount :=
      (filterReadArticles s u
        (env.generalArticles.take (limit + offset + 10))).length,
    cached := false, fallback := true,
    filteredReadCount :=
      (env.generalArticles.take (limit + offset + 10)).length -
        (filterReadArticles s u
          (env.generalArticles.take (limit + offset + 10))).length }

/-- The ranked pre-filter result list of a feed miss (redisService.js
lines 399-441 and the `cacheData.results` of line 486): the merged
per-preference vector results sorted by `final_score` descending. -/
def missSorted (env : Env) (limit offset : ℕ) (prefs : List String) :
    List FeedArticle :=
  sortDescBy (·.final_score)
    (collectPreferenceResults env (limit + offset + 20) 0 prefs [])

/-- The read-filtered ranked list of a feed miss (redisService.js
line 445). -/
def missFiltered (env : Env) (s : Store) (u : String) (limit offset : ℕ)
    (prefs : List String) : List FeedArticle :=
  filterReadArticles s u (missSorted env limit offset prefs)

/-- The final result list of a feed miss (redisService.js lines 448-478):
when the filtered list is shorter than `limit + offset + 10`, top up with
general articles — excluding already-chosen ids, read-filtered, truncated
to `needed = limit + offset + 15 - filtered.length`, each given
`final_score = 0.1`. -/
def missFinalResults (env : Env) (s : Store) (u : String)
    (limit offset : ℕ) (prefs : List String) : List FeedArticle :=
  if (missFiltered env s u limit offset prefs).length < limit + offset + 10 then
    missFiltered env s u limit offset prefs ++
      ((filterReadArticles s u
          ((env.generalArticles.take
              ((limit + offset + 15 -
                (missFiltered env s u limit offset prefs).length) * 2)).filter
            (fun a =>
              !((missFiltered env s u limit offset prefs).map (·.id)).contains
                a.id))).take
        (limit + offset + 15 -
          (missFiltered env s u limit offset prefs).length)).map
        (fun a => { a with final_score := 1/10 })
  else missFiltered env s u limit offset prefs

/-- The miss computation (redisService.js lines 396-519): compute the
final list, cache the pre-filter ranked list under the feed-cache key and
the preference digest under the version key, and return the slice. -/
def personalizedMissCompute (env : Env) (s : Store) (u : String)
    (limit offset : ℕ) (prefs : List String) : FeedResponse × Store :=
  ({ articles := jsSlice (missFinalResults env s u limit offset prefs) offset limit,
     totalCount := (missFinalResults env s u limit offset prefs).length,
     cached := false, fallback := false,
     filteredReadCount := (missSorted env limit offset prefs).length -
       (missFiltered env s u limit offset prefs).length },
   setStore
     (setStore s (feedCacheKey u limit offset)
       (.feedEnvelope (missSorted env limit offset prefs)))
     (prefsVersionSimpleKey u) (.versionTag prefs))

/-- Shallow embedding of `getPersonalizedNews` (redisService.js
lines 312-546). -/
def getPersonalizedNews (env : Env) (s : Store) (u : String)
    (limit offset : ℕ) (forceRefresh : Bool) : FeedResponse × Store :=
  if env.mainFails then (personalizedErrorFallback env s u limit offset, s)
  else
    match cacheProbe s u limit offset forceRefresh with
    | some results => (personalizedCacheHit s u limit offset results, s)
    | none =>
      match getUserPreferences s u with
      | none => (personalizedNoPrefs env s u limit offset, s)
      | some [] => (personalizedNoPrefs env s u limit offset, s)
      | some (p :: ps) => personalizedMissCompute env s u limit offset (p :: ps)

/-! ### Effect of a preference update on the feed state -/

theorem strStartsWith_user_userPrefsKey (u : String) :
    strStartsWith "user:" (userPrefsKey u) = true := by
  rw [strStartsWith_iff, userPrefsKey,
    show "user:" ++ u ++ ":preferences" = "user:" ++ (u ++ ":preferences") from
      String.append_assoc ..]
  exact data_prefix_of_append _ _

theorem strStartsWith_user_readSetKey (u : String) :
    strStartsWith "user:" (readSetKey u) = true := by
  rw [strStartsWith_iff, readSetKey,
    show "user:" ++ u ++ ":read_set" = "user:" ++ (u ++ ":read_set") from
      String.append_assoc ..]
  exact data_prefix_of_append _ _

theorem startsWith_personalized_simple_feedCacheKey (u : String)
    (limit offset : ℕ) :
    "personalized_simple:".data <+: (feedCacheKey u limit offset).data := by
  rw [feedCacheKey]
  simp only [String.append_assoc]
  exact data_prefix_of_append _ _

theorem getUserPreferences_after_update (u : String) (prefs : List String)
    (s : Store) :
    getUserPreferences (updateUserPreferences u prefs s) u = some prefs := by
  rw [getUserPreferences, updateUserPreferences, clearPersonalizedCache,
    lookupStore_deleteKeys,
    userNamespace_not_cleared u _ (strStartsWith_user_userPrefsKey u),
    if_neg (by decide), storeUserPreferences, lookupStore_setStore_self]

theorem prefsVersionSimpleKey_ne_userPrefsKey (u : String) :
    prefsVersionSimpleKey u ≠ userPrefsKey u := by
  intro h
  have h1 : "prefs_version_simple:".data <+: (prefsVersionSimpleKey u).data := by
    rw [prefsVersionSimpleKey]
    exact data_prefix_of_append _ _
  have h2 : "user:".data <+: (prefsVersionSimpleKey u).data := by
    rw [h]
    exact (strStartsWith_iff _ _).mp (strStartsWith_user_userPrefsKey u)
  exact no_common_extension (by decide) (by decide) h1 h2

theorem getPrefsVersion_after_update (u : String) (prefs : List String)
    (s : Store) :
    getPrefsVersion (updateUserPreferences u prefs s) u = getPrefsVersion s u := by
  rw [getPrefsVersion, getPrefsVersion, updateUserPreferences,
    clearPersonalizedCache, lookupStore_deleteKeys,
    enginePersonalizedKey_not_cleared u _ (Or.inr (Or.inr rfl)),
    if_neg (by decide), storeUserPreferences,
    lookupStore_setStore_ne _ _ _ _ (prefsVersionSimpleKey_ne_userPrefsKey u)]

/-- If a `getPersonalizedNews` call came back `cached: true`, the stored
preference-version digest matched the digest of the current preferences. -/
theorem getPersonalizedNews_cached_probe (env : Env) (s : Store) (u : String)
    (limit offset : ℕ) (force : Bool)
    (h : (getPersonalizedNews env s u limit offset force).1.cached = true) :
    versionMatches (getPrefsVersion s u) (getUserPreferences s u) = true := by
  rw [getPersonalizedNews] at h
  by_cases hf : env.mainFails
  · rw [if_pos hf] at h
    exact absurd h (by simp [personalizedErrorFallback])
  · rw [if_neg hf] at h
    cases hp : cacheProbe s u limit offset force with
    | none =>
      rw [hp] at h
      cases hup : getUserPreferences s u with
      | none =>
        rw [hup] at h
        exact absurd h (by simp [personalizedNoPrefs])
      | some prefs =>
        cases prefs with
        | nil =>
          rw [hup] at h
          exact absurd h (by simp [personalizedNoPrefs])
        | cons p ps =>
          rw [hup] at h
          exact absurd h (by simp [personalizedMissCompute])
    | some results =>
      rw [cacheProbe] at hp
      by_cases hforce : force
      · rw [if_pos hforce] at hp
        cases hp
      · rw [if_neg hforce] at hp
        cases he : getFeedEnvelope s u limit offset with
        | none =>
          rw [he] at hp
          cases hp
        | some r =>
          rw [he] at hp
          by_cases hv :
              versionMatches (getPrefsVersion s u) (getUserPreferences s u) = true
          · exact hv
          · change (if versionMatches (getPrefsVersion s u)
                (getUserPreferences s u) = true then some r else none) =
                some results at hp
            rw [if_neg hv] at hp
            cases hp

/-- C2: after `updateUserPreferences(userId, newPrefs)` completes with
`newPrefs` different from the previously stored preferences, the next
`getPersonalizedNews(userId, …)` does not serve the stale cached envelope:
the stored preference-version digest no longer equals the digest of the
current preferences, the probe is a miss, and the call returns
`cached: false` (whatever the cache envelopes, the environment, the
pagination parameters or the `forceRefresh` option). -/
theorem claim_C2_stale_cache_not_served (env : Env) (s : Store) (u : String)
    (oldPrefs newPrefs : List String) (limit offset : ℕ) (force : Bool)
    (_hold : getUserPreferences s u = some oldPrefs)
    (hver : ∀ v, getPrefsVersion s u = some v → v = oldPrefs)
    (hne : newPrefs ≠ oldPrefs) :
    (getPersonalizedNews env (updateUserPreferences u newPrefs s) u limit
        offset force).1.cached = false := by
  by_contra hcon
  rw [Bool.not_eq_false] at hcon
  have hvm := getPersonalizedNews_cached_probe _ _ _ _ _ _ hcon
  rw [getPrefsVersion_after_update, getUserPreferences_after_update] at hvm
  cases hv : getPrefsVersion s u with
  | none =>
    rw [hv] at hvm
    simp [versionMatches] at hvm
  | some v =>
    rw [hv] at hvm
    simp only [versionMatches, decide_eq_true_eq] at hvm
    exact hne (hvm.symm.trans (hver v hv))

/-- A trivial environment: no vector candidates, no general articles, the
main path succeeds. -/
def emptyEnv : Env :=
  { knn := fun _ => [], generalArticles := [], mainFails := false }

/-- Witness for C2 on concrete data: updating `u1`'s preferences from
`["tech"]` to `["sports"]` over `c1Store` makes the next feed read
recompute. -/
theorem claim_C2_witness :
    (getPersonalizedNews emptyEnv
        (updateUserPreferences "u1" ["sports"] c1Store) "u1" 10 0
        false).1.cached = false :=
  claim_C2_stale_cache_not_served emptyEnv c1Store "u1" ["tech"] ["sports"]
    10 0 false (by decide)
    (by
      intro v hv
      have h0 : getPrefsVersion c1Store "u1" = some ["tech"] := by decide
      rw [h0] at hv
      exact (Option.some.inj hv).symm)
    (by decide)

/-! ### The cache-hit branch (C4) -/

/-- Ten cached feed articles for user `u2`. -/
def c4Results : List FeedArticle :=
  [⟨"a1", 0, 0⟩, ⟨"a2", 0, 0⟩, ⟨"a3", 0, 0⟩, ⟨"a4", 0, 0⟩, ⟨"a5", 0, 0⟩,
   ⟨"a6", 0, 0⟩, ⟨"a7", 0, 0⟩, ⟨"a8", 0, 0⟩, ⟨"a9", 0, 0⟩, ⟨"a10", 0, 0⟩]

/-- Keyspace in which user `u2` has a valid cached feed of ten articles,
a matching preference-version digest, and four of the cached articles in
the read set. -/
def c4Store : Store :=
  [(feedCacheKey "u2" 10 0, .feedEnvelope c4Results),
   (prefsVersionSimpleKey "u2", .versionTag ["tech"]),
   (userPrefsKey "u2", .prefsDoc ["tech"]),
   (readSetKey "u2", .readSetVal ["a1", "a2", "a3", "a4"])]

/-- C4, counterexample: with `limit = 10` and four read articles removed
from the cached results, the removed count `4` exceeds `0.3 · limit = 3`,
yet `getPersonalizedNews` still answers from the cache (`cached: true`)
instead of recomputing — the 30%-refresh check is commented out in the
source (redisService.js lines 345-347). -/
theorem claim_C4_counterexample :
    (getPersonalizedNews emptyEnv c4Store "u2" 10 0 false).1.filteredReadCount
        = 4 ∧
    (3 : ℚ) / 10 * 10 < 4 ∧
    (getPersonalizedNews emptyEnv c4Store "u2" 10 0 false).1.cached = true := by
  refine ⟨by decide, by norm_num, by decide⟩

/-- C4, amended: on a personalized-feed cache hit (preference-version
digest matches, no `forceRefresh`, no failure), `getPersonalizedNews`
applies the read-history filter to the cached results and always returns
`filtered[offset:offset+limit]` with `cached = true` and the removed count
as `filteredReadCount` — regardless of how many articles were removed; it
never treats the probe as a miss and leaves the store unchanged. -/
theorem claim_C4_cache_hit_amended (env : Env) (s : Store) (u : String)
    (limit offset : ℕ) (results : List FeedArticle)
    (hf : env.mainFails = false)
    (henv : getFeedEnvelope s u limit offset = some results)
    (hver : versionMatches (getPrefsVersion s u) (getUserPreferences s u)
      = true) :
    (getPersonalizedNews env s u limit offset false).1.articles =
        jsSlice (filterReadArticles s u results) offset limit ∧
    (getPersonalizedNews env s u limit offset false).1.cached = true ∧
    (getPersonalizedNews env s u limit offset false).1.filteredReadCount =
        results.length - (filterReadArticles s u results).length ∧
    (getPersonalizedNews env s u limit offset false).1.totalCount =
        (filterReadArticles s u results).length ∧
    (getPersonalizedNews env s u limit offset false).2 = s := by
  have hprobe : cacheProbe s u limit offset false = some results := by
    rw [cacheProbe, if_neg (by decide), henv]
    show (if versionMatches (getPrefsVersion s u) (getUserPreferences s u)
        = true then some results else none) = some results
    rw [if_pos hver]
  rw [getPersonalizedNews, if_neg (by rw [hf]; decide), hprobe]
  exact ⟨rfl, rfl, rfl, rfl, rfl⟩

/-- Witness for C4's amended theorem on the concrete `c4Store`. -/
theorem claim_C4_amended_witness :
    (getPersonalizedNews emptyEnv c4Store "u2" 10 0 false).1.cached = true :=
  (claim_C4_cache_hit_amended emptyEnv c4Store "u2" 10 0 c4Results rfl
    (by decide) (by decide)).2.1

/-! ### Read filtering (C9) -/

theorem mem_of_jsSlice {l : List FeedArticle} {offset limit : ℕ}
    {a : FeedArticle} (h : a ∈ jsSlice l offset limit) : a ∈ l :=
  List.mem_of_mem_drop (List.mem_of_mem_take h)

theorem filterReadArticles_eq_filter (s : Store) (u : String)
    (l : List FeedArticle) (hu : u ≠ "") :
    filterReadArticles s u l =
      l.filter fun a => !(getUserReadArticles s u).contains a.id := by
  rw [filterReadArticles, if_neg hu]
  by_cases hl : l = []
  · rw [if_pos hl, hl, List.filter_nil]
  · rw [if_neg hl]
    by_cases hr : getUserReadArticles s u = []
    · rw [if_pos hr, hr]
      exact (List.filter_eq_self.mpr fun a _ => by simp).symm
    · rw [if_neg hr]

theorem mem_filterReadArticles (s : Store) (u : String)
    (l : List FeedArticle) (a : FeedArticle) (hu : u ≠ "") :
    a ∈ filterReadArticles s u l ↔
      a ∈ l ∧ a.id ∉ getUserReadArticles s u := by
  rw [filterReadArticles_eq_filter s u l hu, List.mem_filter]
  simp

theorem not_read_of_mem_missFinalResults (env : Env) (s : Store)
    (u : String) (limit offset : ℕ) (prefs : List String) (a : FeedArticle)
    (hu : u ≠ "") (ha : a ∈ missFinalResults env s u limit offset prefs) :
    a.id ∉ getUserReadArticles s u := by
  rw [missFinalResults] at ha
  by_cases hlen :
      (missFiltered env s u limit offset prefs).length < limit + offset + 10
  · rw [if_pos hlen] at ha
    rcases List.mem_append.mp ha with h | h
    · rw [missFiltered] at h
      exact ((mem_filterReadArticles s u _ a hu).mp h).2
    · rcases List.mem_map.mp h with ⟨b, hb, rfl⟩
      exact ((mem_filterReadArticles s u _ b hu).mp
        (List.mem_of_mem_take hb)).2
  · rw [if_neg hlen, missFiltered] at ha
    exact ((mem_filterReadArticles s u _ a hu).mp ha).2

theorem readSetKey_ne_prefsVersionSimpleKey (u : String) :
    readSetKey u ≠ prefsVersionSimpleKey u := by
  intro h
  refine no_common_extension (a := "user:".data)
    (b := "prefs_version_simple:".data) (by decide) (by decide)
    ((strStartsWith_iff _ _).mp (strStartsWith_user_readSetKey u)) ?_
  rw [h, prefsVersionSimpleKey]
  exact data_prefix_of_append _ _

theorem readSetKey_ne_feedCacheKey (u : String) (limit offset : ℕ) :
    readSetKey u ≠ feedCacheKey u limit offset := by
  intro h
  refine no_common_extension (a := "user:".data)
    (b := "personalized_simple:".data) (by decide) (by decide)
    ((strStartsWith_iff _ _).mp (strStartsWith_user_readSetKey u)) ?_
  rw [h]
  exact startsWith_personalized_simple_feedCacheKey u limit offset

/-- A `getPersonalizedNews` call never writes the read set: its store
writes target only the feed-cache and preference-version keys. -/
theorem getUserReadArticles_after_feed (env : Env) (s : Store) (u : String)
    (limit offset : ℕ) (force : Bool) :
    getUserReadArticles (getPersonalizedNews env s u limit offset force).2 u =
      getUserReadArticles s u := by
  rw [getPersonalizedNews]
  by_cases hf : env.mainFails
  · rw [if_pos hf]
  · rw [if_neg hf]
    cases hp : cacheProbe s u limit offset force with
    | some results => rfl
    | none =>
      cases hup : getUserPreferences s u with
      | none => rfl
      | some prefs =>
        cases prefs with
        | nil => rfl
        | cons p ps =>
          show getUserReadArticles
            (personalizedMissCompute env s u limit offset (p :: ps)).2 u = _
          rw [show (personalizedMissCompute env s u limit offset (p :: ps)).2 =
            setStore
              (setStore s (feedCacheKey u limit offset)
                (.feedEnvelope (missSorted env limit offset (p :: ps))))
              (prefsVersionSimpleKey u) (.versionTag (p :: ps)) from rfl]
          rw [getUserReadArticles, getUserReadArticles]
          by_cases hu0 : u = ""
          · rw [if_pos hu0, if_pos hu0]
          · rw [if_neg hu0, if_neg hu0,
              lookupStore_setStore_ne _ _ _ _
                (readSetKey_ne_prefsVersionSimpleKey u),
              lookupStore_setStore_ne _ _ _ _
                (readSetKey_ne_feedCacheKey u limit offset)]

/-- C9: every feed response `getPersonalizedNews` serves to a user `U`
(cache hit, miss, no-preferences fallback, or error fallback) contains no
article whose id is in `U`'s read set — which the call leaves unchanged,
so this holds at response time — and the read filter is exactly a filter:
it removes precisely the candidates whose id is in the read set and
preserves the relative order of the rest (the output is a sublist of the
input). -/
theorem claim_C9_read_filtering (env : Env) (s : Store) (u : String)
    (limit offset : ℕ) (force : Bool) (hu : u ≠ "") :
    (∀ a ∈ (getPersonalizedNews env s u limit offset force).1.articles,
        a.id ∉ getUserReadArticles s u) ∧
    getUserReadArticles (getPersonalizedNews env s u limit offset force).2 u =
        getUserReadArticles s u ∧
    (∀ l, filterReadArticles s u l =
        l.filter fun a => !(getUserReadArticles s u).contains a.id) ∧
    (∀ l, (filterReadArticles s u l).Sublist l) ∧
    (∀ l a, a ∈ filterReadArticles s u l ↔
        a ∈ l ∧ a.id ∉ getUserReadArticles s u) := by
  refine ⟨?_, getUserReadArticles_after_feed env s u limit offset force,
    fun l => filterReadArticles_eq_filter s u l hu,
    fun l => by rw [filterReadArticles_eq_filter s u l hu]
                exact List.filter_sublist l,
    fun l a => mem_filterReadArticles s u l a hu⟩
  intro a ha
  rw [getPersonalizedNews] at ha
  by_cases hf : env.mainFails
  · rw [if_pos hf] at ha
    exact ((mem_filterReadArticles s u _ a hu).mp (mem_of_jsSlice ha)).2
  · rw [if_neg hf] at ha
    cases hp : cacheProbe s u limit offset force with
    | some results =>
      rw [hp] at ha
      exact ((mem_filterReadArticles s u _ a hu).mp (mem_of_jsSlice ha)).2
    | none =>
      rw [hp] at ha
      cases hup : getUserPreferences s u with
      | none =>
        rw [hup] at ha
        exact ((mem_filterReadArticles s u _ a hu).mp (mem_of_jsSlice ha)).2
      | some prefs =>
        cases prefs with
        | nil =>
          rw [hup] at ha
          exact ((mem_filterReadArticles s u _ a hu).mp (mem_of_jsSlice ha)).2
        | cons p ps =>
          rw [hup] at ha
          exact not_read_of_mem_missFinalResults env s u limit offset
            (p :: ps) a hu (mem_of_jsSlice ha)

/-- Witness for C9 on concrete data: over `c4Store` the read filter for
`u2` is exactly the filter by the read set. -/
theorem claim_C9_witness :
    filterReadArticles c4Store "u2" c4Results =
      c4Results.filter
        (fun a => !(getUserReadArticles c4Store "u2").contains a.id) :=
  (claim_C9_read_filtering emptyEnv c4Store "u2" 10 0 false
    (by decide)).2.2.1 c4Results

/-! ### Similarity thresholds (C3) -/

/-- The target article of a `findSimilarArticles` call (the fields its
vector path consults). -/
structure NewsDoc where
  id : String
  title : String
  keywords : List String
  deriving DecidableEq, Repr

/-- The vector path of `findSimilarArticles` (redisService.js
lines 1219-1252): search text is the joined keywords (title if none),
threshold `0.5`, the target's id excluded. -/
def findSimilarArticlesVector (env : Env) (target : NewsDoc)
    (limit offset : ℕ) : List ScoredArticle :=
  vectorSearchSimilarNews
    (env.knn (if target.keywords = [] then target.title
              else String.intercalate " " target.keywords))
    (limit + offset + 20) (1/2) (some target.id)

theorem mem_addVectorArticles (w : ℚ) (l : List ScoredArticle)
    (seen : List String) (a : FeedArticle)
    (h : a ∈ (addVectorArticles w l seen).1) :
    ∃ sa ∈ l, a.id = sa.id ∧ a.similarity = sa.similarity := by
  induction l generalizing seen with
  | nil => cases h
  | cons x xs ih =>
    rw [addVectorArticles] at h
    by_cases hc : seen.contains x.id
    · rw [if_pos hc] at h
      rcases ih seen h with ⟨sa, hsa, h1, h2⟩
      exact ⟨sa, List.mem_cons_of_mem x hsa, h1, h2⟩
    · rw [if_neg hc] at h
      rcases List.mem_cons.mp h with rfl | h
      · exact ⟨x, List.mem_cons_self x xs, rfl, rfl⟩
      · rcases ih (x.id :: seen) h with ⟨sa, hsa, h1, h2⟩
        exact ⟨sa, List.mem_cons_of_mem x hsa, h1, h2⟩

theorem mem_collectPreferenceResults (env : Env) (n i : ℕ)
    (prefs seen : List String) (a : FeedArticle)
    (h : a ∈ collectPreferenceResults env n i prefs seen) :
    (2/5 : ℚ) ≤ a.similarity := by
  induction prefs generalizing i seen with
  | nil => cases h
  | cons p ps ih =>
    simp only [collectPreferenceResults] at h
    rcases List.mem_append.mp h with h | h
    · rcases mem_addVectorArticles _ _ _ _ h with ⟨sa, hsa, -, h2⟩
      rw [h2]
      exact (mem_vectorSearchSimilarNews hsa).1
    · exact ih (i + 1) _ h

/-- C3: `vectorSearchSimilarNews` keeps a candidate only when
`1 - cosine_distance` reaches the given threshold, so every article of the
similar-articles vector path has similarity ≥ 0.5 and every candidate the
personalized-feed merge considers has similarity ≥ 0.4. -/
theorem claim_C3_similarity_thresholds :
    (∀ (knn : List SearchDoc) (limit : ℕ) (threshold : ℚ)
        (excl : Option String) (a : ScoredArticle),
      a ∈ vectorSearchSimilarNews knn limit threshold excl →
      threshold ≤ a.similarity) ∧
    (∀ (env : Env) (target : NewsDoc) (limit offset : ℕ) (a : ScoredArticle),
      a ∈ findSimilarArticlesVector env target limit offset →
      (1/2 : ℚ) ≤ a.similarity) ∧
    (∀ (env : Env) (n i : ℕ) (prefs seen : List String) (a : FeedArticle),
      a ∈ collectPreferenceResults env n i prefs seen →
      (2/5 : ℚ) ≤ a.similarity) :=
  ⟨fun _ _ _ _ _ h => (mem_vectorSearchSimilarNews h).1,
   fun _ _ _ _ _ h => (mem_vectorSearchSimilarNews h).1,
   fun env n i prefs seen a h =>
     mem_collectPreferenceResults env n i prefs seen a h⟩

/-- Witness for C3: a concrete candidate at cosine distance 0 survives the
0.5-threshold search with similarity 1. -/
theorem claim_C3_witness :
    (1/2 : ℚ) ≤ ScoredArticle.similarity ⟨"x", 1⟩ :=
  claim_C3_similarity_thresholds.1 [⟨"x", some 0⟩] 1 (1/2) none ⟨"x", 1⟩
    (by
      show ScoredArticle.mk "x" 1 ∈
        vectorSearchSimilarNews [⟨"x", some 0⟩] 1 (1/2) none
      norm_num [vectorSearchSimilarNews, ftKnnCandidates, sortDescBy,
        insertDescBy, List.filterMap])

/-! ### Rank fusion of the fallback strategies (C5)

`combineAndRankSimilarity`, redisService.js lines 1664-1737: accumulate
weighted scores per candidate id, skipping the target id; sort by combined
score descending (the temporary sorted set read back with
`zRangeByScore … REV`), paginate, and hydrate each id from the document
store. -/

/-- A result from one of the four fallback strategies: id, per-strategy
score, and strategy tag. -/
structure StratArticle where
  id : String
  similarity_score : ℚ
  similarity_type : String
  deriving DecidableEq, Repr

/-- The rank-fusion weights (`weights[article.similarity_type] || 0.1`). -/
def strategyWeight (t : String) : ℚ :=
  if t = "text" then 2/5
  else if t = "semantic" then 3/10
  else if t = "category" then 1/5
  else if t = "temporal" then 1/10
  else 1/10

/-- The `articleScores` map update: add the weighted score onto the
candidate's entry, inserting it if absent. -/
def upsertScore : List (String × ℚ) → String → ℚ → List (String × ℚ)
  | [], id, w => [(id, w)]
  | e :: es, id, w =>
    if e.1 = id then (id, e.2 + w) :: es else e :: upsertScore es id w

/-- The inner accumulation loop over one strategy's results: a candidate
contributes only when its id is truthy and differs from the target id. -/
def accumulateScoresList (targetId : String) :
    List (String × ℚ) → List StratArticle → List (String × ℚ)
  | acc, [] => acc
  | acc, a :: rest =>
    if a.id ≠ "" ∧ a.id ≠ targetId then
      accumulateScoresList targetId
        (upsertScore acc a.id (a.similarity_score * strategyWeight a.similarity_type))
        rest
    else accumulateScoresList targetId acc rest

/-- The outer accumulation loop over all strategies. -/
def accumulateScores (targetId : String) :
    List (List StratArticle) → List (String × ℚ) → List (String × ℚ)
  | [], acc => acc
  | l :: ls, acc =>
    accumulateScores targetId ls (accumulateScoresList targetId acc l)

/-- Document-store lookup for hydration (`redis.json.get("news:" + id)`),
keyed by article id. -/
def lookupNews : List (String × NewsDoc) → String → Option NewsDoc
  | [], _ => none
  | e :: es, k => if e.1 = k then some e.2 else lookupNews es k

/-- Shallow embedding of `combineAndRankSimilarity` (success path). -/
def combineAndRankSimilarity (strategyResults : List (List StratArticle))
    (targetId : String) (limit offset : ℕ)
    (docs : List (String × NewsDoc)) : List NewsDoc × ℕ :=
  if accumulateScores targetId strategyResults [] = [] then ([], 0)
  else
    ((((sortDescBy (·.2) (accumulateScores targetId strategyResults [])).drop
          offset).take limit).filterMap (fun e => lookupNews docs e.1),
     (accumulateScores targetId strategyResults []).length)

theorem mem_upsertScore_key (acc : List (String × ℚ)) (id : String) (w : ℚ)
    (k : String) (h : k ∈ (upsertScore acc id w).map (·.1)) :
    k = id ∨ k ∈ acc.map (·.1) := by
  induction acc with
  | nil =>
    rw [upsertScore] at h
    rcases List.mem_map.mp h with ⟨e, he, rfl⟩
    rcases List.mem_singleton.mp he with rfl
    exact Or.inl rfl
  | cons x xs ih =>
    rw [upsertScore] at h
    by_cases hx : x.1 = id
    · rw [if_pos hx] at h
      rcases List.mem_map.mp h with ⟨e, he, rfl⟩
      rcases List.mem_cons.mp he with rfl | he'
      · exact Or.inl rfl
      · exact Or.inr (List.mem_map_of_mem _ (List.mem_cons_of_mem x he'))
    · rw [if_neg hx] at h
      rcases List.mem_map.mp h with ⟨e, he, rfl⟩
      rcases List.mem_cons.mp he with heq | he'
      · exact Or.inr (List.mem_map_of_mem _ (List.mem_cons.mpr (Or.inl heq)))
      · rcases ih (List.mem_map_of_mem _ he') with h1 | h1
        · exact Or.inl h1
        · rcases List.mem_map.mp h1 with ⟨e2, he2, hk⟩
          exact Or.inr (hk ▸ List.mem_map_of_mem _ (List.mem_cons_of_mem x he2))

theorem key_mem_accumulateScoresList (targetId : String)
    (l : List StratArticle) (acc : List (String × ℚ)) (k : String)
    (h : k ∈ (accumulateScoresList targetId acc l).map (·.1)) :
    k ∈ acc.map (·.1) ∨ k ≠ targetId := by
  induction l generalizing acc with
  | nil => exact Or.inl h
  | cons a rest ih =>
    rw [accumulateScoresList] at h
    by_cases hc : a.id ≠ "" ∧ a.id ≠ targetId
    · rw [if_pos hc] at h
      rcases ih _ h with h1 | h1
      · rcases mem_upsertScore_key _ _ _ _ h1 with rfl | h2
        · exact Or.inr hc.2
        · exact Or.inl h2
      · exact Or.inr h1
    · rw [if_neg hc] at h
      exact ih _ h

theorem key_mem_accumulateScores (targetId : String)
    (ls : List (List StratArticle)) (acc : List (String × ℚ)) (k : String)
    (h : k ∈ (accumulateScores targetId ls acc).map (·.1)) :
    k ∈ acc.map (·.1) ∨ k ≠ targetId := by
  induction ls generalizing acc with
  | nil => exact Or.inl h
  | cons l ls ih =>
    rw [accumulateScores] at h
    rcases ih _ h with h1 | h1
    · exact key_mem_accumulateScoresList targetId l acc k h1
    · exact Or.inr h1

theorem lookupNews_id (docs : List (String × NewsDoc))
    (hwf : ∀ e ∈ docs, (e : String × NewsDoc).2.id = e.1) (k : String)
    (d : NewsDoc) (h : lookupNews docs k = some d) : d.id = k := by
  induction docs with
  | nil => cases h
  | cons e es ih =>
    rw [lookupNews] at h
    by_cases he : e.1 = k
    · rw [if_pos he] at h
      cases h
      rw [hwf e (List.mem_cons_self e es), he]
    · rw [if_neg he] at h
      exact ih (fun x hx => hwf x (List.mem_cons_of_mem e hx)) h

/-- C5: the similar-articles result never contains the target article —
the vector path's `-@article_id:{A}` clause excludes it, and the
multi-strategy rank fusion skips any candidate whose id equals the target
id (so hydrated fused results never carry the target id either). -/
theorem claim_C5_excludes_self :
    (∀ (knn : List SearchDoc) (limit : ℕ) (threshold : ℚ)
        (targetId : String) (a : ScoredArticle),
      a ∈ vectorSearchSimilarNews knn limit threshold (some targetId) →
      a.id ≠ targetId) ∧
    (∀ (env : Env) (target : NewsDoc) (limit offset : ℕ) (a : ScoredArticle),
      a ∈ findSimilarArticlesVector env target limit offset →
      a.id ≠ target.id) ∧
    (∀ (strategyResults : List (List StratArticle)) (targetId : String)
        (limit offset : ℕ) (docs : List (String × NewsDoc)),
      (∀ e ∈ docs, (e : String × NewsDoc).2.id = e.1) →
      ∀ a ∈ (combineAndRankSimilarity strategyResults targetId limit offset
          docs).1, a.id ≠ targetId) := by
  refine ⟨fun _ _ _ _ _ h => vectorSearchSimilarNews_excludes h,
    fun _ _ _ _ _ h => vectorSearchSimilarNews_excludes h, ?_⟩
  intro sr targetId limit offset docs hwf a ha
  rw [combineAndRankSimilarity] at ha
  by_cases hsc : accumulateScores targetId sr [] = []
  · rw [if_pos hsc] at ha
    cases ha
  · rw [if_neg hsc] at ha
    rcases List.mem_filterMap.mp ha with ⟨e, he, hlook⟩
    have hid := lookupNews_id docs hwf e.1 a hlook
    have he1 : e ∈ sortDescBy (·.2) (accumulateScores targetId sr []) :=
      List.mem_of_mem_drop (List.mem_of_mem_take he)
    rw [mem_sortDescBy] at he1
    rcases key_mem_accumulateScores targetId sr [] e.1
        (List.mem_map_of_mem _ he1) with h | h
    · simp at h
    · rw [hid]
      exact h

/-- Witness for C5: a concrete candidate distinct from the excluded target
id survives and indeed differs from it. -/
theorem claim_C5_witness : ScoredArticle.id ⟨"y", 1⟩ ≠ "x" :=
  claim_C5_excludes_self.1 [⟨"y", some 0⟩] 1 0 "x" ⟨"y", 1⟩
    (by
      show ScoredArticle.mk "y" 1 ∈
        vectorSearchSimilarNews [⟨"y", some 0⟩] 1 0 (some "x")
      norm_num [vectorSearchSimilarNews, ftKnnCandidates, sortDescBy,
        insertDescBy, List.filterMap])

/-! ### Preference store/update handlers (C6)

`newsController.js` lines 265-295 (`storeUserPreferencesHandler`) and
315-343 (`updateUserPreferencesHandler`).  Non-array bodies are rejected
before the cleaning pipeline; the claim quantifies over accepted `topics`
arrays, whose entries may still be non-strings.  JavaScript
`String.prototype.trim` and `toLowerCase` are modelled directly over the
character list (`String.mapAux` and friends do not reduce in the
kernel). -/

/-- JS whitespace as used by `trim` (the characters occurring in this
code base's inputs). -/
def isJsWhitespace (c : Char) : Bool :=
  c = ' ' || c = '\t' || c = '\n' || c = '\r'

/-- Model of `String.prototype.trim`. -/
def jsTrim (s : String) : String :=
  ⟨((s.data.dropWhile isJsWhitespace).reverse.dropWhile isJsWhitespace).reverse⟩

/-- Model of `String.prototype.toLowerCase` (ASCII case mapping). -/
def jsToLower (s : String) : String :=
  ⟨s.data.map Char.toLower⟩

/-- An element of the `topics` array: a string or any other JSON value. -/
inductive JSVal where
  | str (s : String)
  | nonString
  deriving DecidableEq, Repr

/-- The `filter` predicate of the cleaning pipeline
(`typeof pref === 'string' && pref.trim().length > 0`), fused with the
element as a `filterMap`. -/
def validPreference : JSVal → Option String
  | .str s => if 0 < (jsTrim s).data.length then some s else none
  | .nonString => none

/-- The cleaning pipeline of both handlers:
`topics.filter(valid).map(p => p.trim().toLowerCase()).slice(0, 10)`. -/
def cleanPreferences (topics : List JSVal) : List String :=
  ((topics.filterMap validPreference).map fun s => jsToLower (jsTrim s)).take 10

/-- A handler outcome: a 400 response (nothing stored) or a 200 response
with the list that was stored. -/
inductive HandlerResult where
  | badRequest
  | ok (stored : List String)
  deriving DecidableEq, Repr

/-- Shallow embedding of `storeUserPreferencesHandler` for an accepted
`topics` array: 400 when no entry is valid, otherwise the cleaned list is
stored (via `storeUserPreferences`) and echoed. -/
def storeUserPreferencesHandler (topics : List JSVal) : HandlerResult :=
  if cleanPreferences topics = [] then .badRequest
  else .ok (cleanPreferences topics)

/-- Shallow embedding of `updateUserPreferencesHandler` for an accepted
`topics` array (same validation; stores via `updateUserPreferences`). -/
def updateUserPreferencesHandler (topics : List JSVal) : HandlerResult :=
  if cleanPreferences topics = [] then .badRequest
  else .ok (cleanPreferences topics)

/-- C6, counterexample: the handlers do not deduplicate — two topics that
normalize to the same string are both stored. -/
theorem claim_C6_counterexample :
    storeUserPreferencesHandler [.str "Tech", .str "tech"] =
      .ok ["tech", "tech"] ∧
    ¬ (["tech", "tech"] : List String).Nodup := by
  exact ⟨by decide, by decide⟩

/-- C6, amended: for every accepted `topics` array, the stored preference
list consists of the valid entries trimmed and lowercased in order,
truncated to at most 10 — duplicates are NOT removed — and when no entry
is a non-empty string the handler responds 400 without storing anything;
the update handler validates identically. -/
theorem claim_C6_preferences_normalization_amended (topics : List JSVal) :
    (storeUserPreferencesHandler topics = .badRequest ↔
      ∀ s, JSVal.str s ∈ topics → (jsTrim s).data.length = 0) ∧
    updateUserPreferencesHandler topics = storeUserPreferencesHandler topics ∧
    (∀ l, storeUserPreferencesHandler topics = .ok l →
      l = cleanPreferences topics ∧ l ≠ [] ∧ l.length ≤ 10 ∧
      ∀ p ∈ l, ∃ s, JSVal.str s ∈ topics ∧ 0 < (jsTrim s).data.length ∧
        p = jsToLower (jsTrim s)) := by
  have hclean : cleanPreferences topics = [] ↔
      ∀ s, JSVal.str s ∈ topics → (jsTrim s).data.length = 0 := by
    rw [cleanPreferences]
    constructor
    · intro h s hs
      rcases List.take_eq_nil_iff.mp h with h10 | hmap
      · exact absurd h10 (by decide)
      · rw [List.map_eq_nil_iff, List.filterMap_eq_nil_iff] at hmap
        have := hmap (JSVal.str s) hs
        rw [validPreference] at this
        by_cases hlen : 0 < (jsTrim s).data.length
        · rw [if_pos hlen] at this
          cases this
        · omega
    · intro h
      have hmap : topics.filterMap validPreference = [] := by
        rw [List.filterMap_eq_nil_iff]
        intro v hv
        cases v with
        | str s =>
          rw [validPreference, if_neg]
          rw [h s hv]
          omega
        | nonString => rfl
      rw [hmap]
      rfl
  refine ⟨?_, rfl, ?_⟩
  · rw [storeUserPreferencesHandler]
    by_cases hc : cleanPreferences topics = []
    · rw [if_pos hc]
      exact iff_of_true rfl (hclean.mp hc)
    · rw [if_neg hc]
      constructor
      · intro habs
        cases habs
      · intro hall
        exact absurd (hclean.mpr hall) hc
  · intro l hl
    rw [storeUserPreferencesHandler] at hl
    by_cases hc : cleanPreferences topics = []
    · rw [if_pos hc] at hl
      cases hl
    · rw [if_neg hc] at hl
      cases hl
      refine ⟨rfl, hc, ?_, ?_⟩
      · rw [cleanPreferences]
        exact le_trans (by rw [List.length_take]; exact min_le_left _ _)
          (le_refl _)
      · intro p hp
        rw [cleanPreferences] at hp
        have hp' := List.mem_of_mem_take hp
        rcases List.mem_map.mp hp' with ⟨s, hs, rfl⟩
        rcases List.mem_filterMap.mp hs with ⟨v, hv, hval⟩
        cases v with
        | str s0 =>
          rw [validPreference] at hval
          by_cases hlen : 0 < (jsTrim s0).data.length
          · rw [if_pos hlen] at hval
            cases hval
            exact ⟨_, hv, hlen, rfl⟩
          · rw [if_neg hlen] at hval
            cases hval
        | nonString => cases hval

/-- Witness for C6's amended theorem: the stored list for a concrete
request is the normalized, truncated list. -/
theorem claim_C6_amended_witness :
    (["tech", "tech"] : List String).length ≤ 10 ∧
    (["tech", "tech"] : List String) ≠ [] :=
  have h := (claim_C6_preferences_normalization_amended
    [.str "Tech", .str "tech"]).2.2 ["tech", "tech"] (by decide)
  ⟨h.2.2.1, h.2.1⟩

/-! ### Trending articles (C7)

`getTrendingArticles`, redisService.js lines 2357-2398: iterate the stored
article ids, keep those with `todayViews > 0`, decorate with today's and
yesterday's counters and a growth rate, sort by `todayViews` descending,
return the first `limit`.  The daily view counters are abstracted as
functions from article id to count. -/

/-- A trending list entry (`{...article, todayViews, yesterdayViews,
growth}` projected to the fields the claim is about). -/
structure TrendingEntry where
  id : String
  todayViews : ℕ
  yesterdayViews : ℕ
  growth : ℚ
  deriving DecidableEq, Repr

/-- The decoration of one article (redisService.js lines 2379-2384):
`growth = yesterdayViews > 0 ? (today − yesterday) / yesterday * 100 : 0`. -/
def decorateTrending (vToday vYest : String → ℕ) (id : String) :
    TrendingEntry :=
  { id := id, todayViews := vToday id, yesterdayViews := vYest id,
    growth :=
      if 0 < vYest id then
        (((vToday id : ℚ) - (vYest id : ℚ)) / (vYest id : ℚ)) * 100
      else 0 }

/-- Shallow embedding of `getTrendingArticles`. -/
def getTrendingArticles (limit : ℕ) (ids : List String)
    (vToday vYest : String → ℕ) : List TrendingEntry :=
  (sortDescBy (·.todayViews)
    ((ids.filter fun id => 0 < vToday id).map
      (decorateTrending vToday vYest))).take limit

theorem mem_getTrendingArticles (limit : ℕ) (ids : List String)
    (vToday vYest : String → ℕ) (e : TrendingEntry)
    (h : e ∈ getTrendingArticles limit ids vToday vYest) :
    ∃ id ∈ ids, 0 < vToday id ∧ e = decorateTrending vToday vYest id := by
  have h1 := List.mem_of_mem_take h
  rw [mem_sortDescBy] at h1
  rcases List.mem_map.mp h1 with ⟨id, hid, rfl⟩
  have hfil := List.of_mem_filter hid
  exact ⟨id, List.mem_of_mem_filter hid, by simpa using hfil, rfl⟩

/-- Today's concrete view counts: article `a1` was viewed five times. -/
def c7Today : String → ℕ := fun id => if id = "a1" then 5 else 0

/-- C7, counterexample: for `todayViews = 5, yesterdayViews = 0` the code
decorates with `growth = 0`, while the claimed formula
`(today − yesterday) / max(yesterday, 1)` gives `5`. -/
theorem claim_C7_counterexample :
    getTrendingArticles 2 ["a1"] c7Today (fun _ => 0) =
      [{ id := "a1", todayViews := 5, yesterdayViews := 0, growth := 0 }] ∧
    ((5 : ℚ) - 0) / max (0 : ℚ) 1 = 5 ∧
    (0 : ℚ) ≠ 5 := by
  exact ⟨by decide, by norm_num, by norm_num⟩

/-- C7, amended: `getTrendingArticles` includes exactly the articles with
`todayViews > 0`, decorates each with `{todayViews, yesterdayViews,
growth}` where `growth = (today − yesterday) / yesterday · 100` when
`yesterday > 0` and `0` otherwise, sorts by `todayViews` descending, and
returns the top `limit` entries. -/
theorem claim_C7_trending_amended (limit : ℕ) (ids : List String)
    (vToday vYest : String → ℕ) :
    (∀ e ∈ getTrendingArticles limit ids vToday vYest,
      0 < e.todayViews ∧ e.todayViews = vToday e.id ∧
      e.yesterdayViews = vYest e.id ∧
      (0 < e.yesterdayViews →
        e.growth = (((e.todayViews : ℚ) - (e.yesterdayViews : ℚ)) /
          (e.yesterdayViews : ℚ)) * 100) ∧
      (e.yesterdayViews = 0 → e.growth = 0)) ∧
    List.Sorted (fun x y => y.todayViews ≤ x.todayViews)
      (getTrendingArticles limit ids vToday vYest) ∧
    (getTrendingArticles limit ids vToday vYest).length ≤ limit ∧
    ((ids.filter fun id => 0 < vToday id).length ≤ limit →
      ∀ id ∈ ids, 0 < vToday id →
        decorateTrending vToday vYest id ∈
          getTrendingArticles limit ids vToday vYest) := by
  refine ⟨?_, ?_, ?_, ?_⟩
  · intro e he
    rcases mem_getTrendingArticles limit ids vToday vYest e he with
      ⟨id, -, hpos, rfl⟩
    simp only [decorateTrending]
    refine ⟨hpos, trivial, trivial, ?_, ?_⟩
    · intro hy
      rw [if_pos hy]
    · intro hy
      rw [if_neg (by omega)]
  · exact List.Pairwise.sublist (List.take_sublist _ _)
      (sorted_sortDescBy (fun e : TrendingEntry => e.todayViews)
        ((ids.filter fun id => 0 < vToday id).map
          (decorateTrending vToday vYest)))
  · rw [getTrendingArticles, List.length_take]
    exact min_le_left _ _
  · intro hlen id hid hpos
    rw [getTrendingArticles]
    have hlen2 : (sortDescBy (·.todayViews)
        ((ids.filter fun id => 0 < vToday id).map
          (decorateTrending vToday vYest))).length ≤ limit := by
      rw [length_sortDescBy, List.length_map]
      exact hlen
    rw [List.take_of_length_le hlen2, mem_sortDescBy]
    exact List.mem_map_of_mem _ (List.mem_filter.mpr ⟨hid, by simpa⟩)

/-- Witness for C7's amended theorem on concrete counters. -/
theorem claim_C7_amended_witness :
    decorateTrending c7Today (fun _ => 0) "a1" ∈
      getTrendingArticles 2 ["a1"] c7Today (fun _ => 0) :=
  (claim_C7_trending_amended 2 ["a1"] c7Today (fun _ => 0)).2.2.2
    (by decide) "a1" (by decide) (by decide)

/-! ### Admin cache clear (C8)

`clearAllCacheExceptUser`, cacheClearService.js lines 24-204: for each
pattern of a fixed list, delete every key `redis.keys(pattern)` returns.
Patterns are either `literal*` (prefix match) or a bare literal (exact
match).  The keyspace is modelled as its key list. -/

/-- A glob pattern of the fixed list: `star p` is `p*`, `lit s` is the
bare literal `s`. -/
inductive GlobPat where
  | star (p : String)
  | lit (s : String)
  deriving DecidableEq, Repr

/-- Whether `redis.keys(pattern)` selects the key `k`. -/
def globMatches : GlobPat → String → Bool
  | .star p, k => strStartsWith p k
  | .lit s, k => k = s

/-- The fixed `cachePatterns` list (cacheClearService.js lines 41-96). -/
def cachePatterns : List GlobPat :=
  [.star "news:", .star "all_articles:",
   .star "article_daily_views:", .star "article_engagement:",
   .star "article_last_viewed:", .star "article_unique_views:",
   .star "article_views:", .star "article_user_views:",
   .star "user_article_views:",
   .star "search:", .star "topic_search:", .star "sentiment_search:",
   .star "similar:", .star "similar_meta:", .star "similar_stats:",
   .star "similar_bloom:", .lit "similar_cache_lru",
   .star "similar_unique_articles:",
   .star "personalized:", .star "personalized_simple:",
   .star "personalized_search:", .star "personalized_search_simple:",
   .star "personalized_meta:", .star "personalized_stats:",
   .star "personalized_search_stats_simple:",
   .star "personalized_stats_simple:", .lit "personalized_cache_lru",
   .star "prefs_version:", .star "prefs_version_simple:",
   .star "fallback:", .star "personalized_fallback:",
   .star "temp:", .star "cache_stats:",
   .star "vector:", .star "embedding:",
   .star "idx:", .star "search_meta:"]

/-- A key is deleted iff some pattern of the fixed list matches it. -/
def matchesAnyCachePattern (k : String) : Bool :=
  cachePatterns.any fun p => globMatches p k

/-- Shallow embedding of `clearAllCacheExceptUser` on the keyspace: every
key matched by some pattern is deleted, every other key survives. -/
def clearAllCacheExceptUser (store : List String) : List String :=
  store.filter fun k => !matchesAnyCachePattern k

/-- A pattern cannot select any `user:*` key: for `p*` patterns, `p` and
`"user:"` are prefix-incompatible; bare literals do not start with
`"user:"`. -/
def patternAvoidsUser : GlobPat → Bool
  | .star p => decide (Incompat p "user:")
  | .lit s => !strStartsWith "user:" s

theorem globMatches_eq_false_of_avoids (p : GlobPat) (k : String)
    (havoid : patternAvoidsUser p = true)
    (huser : strStartsWith "user:" k = true) :
    globMatches p k = false := by
  cases p with
  | star q =>
    rw [globMatches, Bool.eq_false_iff]
    intro hq
    rw [patternAvoidsUser, decide_eq_true_eq] at havoid
    exact no_common_extension havoid.2 havoid.1
      ((strStartsWith_iff _ _).mp huser) ((strStartsWith_iff _ _).mp hq)
  | lit s =>
    rw [globMatches, Bool.eq_false_iff]
    intro hk
    rw [decide_eq_true_eq] at hk
    rw [patternAvoidsUser, Bool.not_eq_true', Bool.eq_false_iff] at havoid
    exact havoid (hk ▸ huser)

theorem matchesAnyCachePattern_user (k : String)
    (huser : strStartsWith "user:" k = true) :
    matchesAnyCachePattern k = false := by
  rw [matchesAnyCachePattern, Bool.eq_false_iff]
  intro hany
  rcases List.any_eq_true.mp hany with ⟨p, hp, hm⟩
  have havoid : patternAvoidsUser p = true := by
    have hall : cachePatterns.all patternAvoidsUser = true := by decide
    exact List.all_eq_true.mp hall p hp
  rw [globMatches_eq_false_of_avoids p k havoid huser] at hm
  cases hm

/-- C8: `clearAllCacheExceptUser` never deletes any key matching `user:*`
— its deletions target exactly the keys matched by the fixed cache-pattern
list, and no pattern in that list matches a key with the `user:` prefix,
so all user preference, read and read-set keys are unchanged by the
operation. -/
theorem claim_C8_preserves_user_namespace (store : List String) :
    (clearAllCacheExceptUser store).filter
        (fun k => strStartsWith "user:" k) =
      store.filter (fun k => strStartsWith "user:" k) ∧
    (∀ k, strStartsWith "user:" k = true →
      (k ∈ clearAllCacheExceptUser store ↔ k ∈ store)) ∧
    (∀ k ∈ store, k ∉ clearAllCacheExceptUser store →
      matchesAnyCachePattern k = true) := by
  refine ⟨?_, ?_, ?_⟩
  · rw [clearAllCacheExceptUser, List.filter_filter]
    apply List.filter_congr
    intro k hk
    by_cases hu : strStartsWith "user:" k = true
    · rw [hu, matchesAnyCachePattern_user k hu]
      rfl
    · rw [Bool.not_eq_true] at hu
      rw [hu, Bool.false_and]
  · intro k hu
    constructor
    · intro hmem
      exact List.mem_of_mem_filter hmem
    · intro hmem
      rw [clearAllCacheExceptUser, List.mem_filter]
      exact ⟨hmem, by rw [matchesAnyCachePattern_user k hu]; rfl⟩
  · intro k hk hnot
    by_contra hmatch
    rw [Bool.not_eq_true, Bool.eq_false_iff] at hmatch
    apply hnot
    rw [clearAllCacheExceptUser, List.mem_filter]
    refine ⟨hk, ?_⟩
    rw [Bool.not_eq_eq_eq_not, Bool.not_true, Bool.eq_false_iff]
    exact hmatch

/-- Witness for C8 on a concrete keyspace: the user key survives the
clear. -/
theorem claim_C8_witness :
    "user:u1:preferences" ∈
      clearAllCacheExceptUser ["user:u1:preferences", "news:1"] :=
  ((claim_C8_preserves_user_namespace
    ["user:u1:preferences", "news:1"]).2.1 "user:u1:preferences"
    (by decide)).mpr (by decide)

/-! ### Cosine similarity helper (C10)

`calculateCosineSimilarity`, redisService.js lines 787-807.  Vector
components are modelled as `ℚ` (JS numbers), `Math.sqrt` as `Real.sqrt`;
a missing argument is `none`. -/

/-- The accumulation loop `dotProduct += A[i] * B[i]` (the loop runs over
the common length; the guard has already ensured the lengths agree). -/
def dotProduct : List ℚ → List ℚ → ℚ
  | a :: as, b :: bs => a * b + dotProduct as bs
  | _, _ => 0

/-- `normA += A[i] * A[i]` summed over the vector. -/
def sumSquares (v : List ℚ) : ℚ := dotProduct v v

/-- Shallow embedding of `calculateCosineSimilarity`: `0` for a missing
argument or a length mismatch, `0` when either norm is zero, otherwise
`dotProduct / (√normA · √normB)`. -/
noncomputable def calculateCosineSimilarity (va vb : Option (List ℚ)) : ℝ :=
  match va, vb with
  | some a, some b =>
    if a.length ≠ b.length then 0
    else if sumSquares a = 0 ∨ sumSquares b = 0 then 0
    else (dotProduct a b : ℝ) /
      (Real.sqrt (sumSquares a : ℝ) * Real.sqrt (sumSquares b : ℝ))
  | _, _ => 0

theorem sumSquares_nonneg (v : List ℚ) : 0 ≤ sumSquares v := by
  induction v with
  | nil => exact le_refl 0
  | cons x xs ih =>
    show (0 : ℚ) ≤ x * x + dotProduct xs xs
    exact add_nonneg (mul_self_nonneg x) ih

/-- C10: `calculateCosineSimilarity` is total and never divides by zero:
it returns 0 when either argument is missing, when the vector lengths
differ, or when either vector has zero norm; otherwise the denominator
`√normA · √normB` is provably nonzero and the result is
`dotProduct / (√normA · √normB)` — so the semantic filtering of
personalized search never produces NaN from a degenerate stored vector. -/
theorem claim_C10_cosine_total (va vb : Option (List ℚ)) :
    (va = none ∨ vb = none → calculateCosineSimilarity va vb = 0) ∧
    (∀ a b, va = some a → vb = some b → a.length ≠ b.length →
      calculateCosineSimilarity va vb = 0) ∧
    (∀ a b, va = some a → vb = some b →
      (sumSquares a = 0 ∨ sumSquares b = 0) →
      calculateCosineSimilarity va vb = 0) ∧
    (∀ a b, va = some a → vb = some b → a.length = b.length →
      sumSquares a ≠ 0 → sumSquares b ≠ 0 →
      Real.sqrt (sumSquares a : ℝ) * Real.sqrt (sumSquares b : ℝ) ≠ 0 ∧
      calculateCosineSimilarity va vb =
        (dotProduct a b : ℝ) /
          (Real.sqrt (sumSquares a : ℝ) * Real.sqrt (sumSquares b : ℝ))) := by
  refine ⟨?_, ?_, ?_, ?_⟩
  · rintro (rfl | rfl)
    · cases vb <;> rfl
    · cases va <;> rfl
  · intro a b ha hb hlen
    subst ha
    subst hb
    simp only [calculateCosineSimilarity]
    rw [if_pos hlen]
  · intro a b ha hb hz
    subst ha
    subst hb
    simp only [calculateCosineSimilarity]
    by_cases hlen : a.length ≠ b.length
    · rw [if_pos hlen]
    · rw [if_neg hlen, if_pos hz]
  · intro a b ha hb hlen hna hnb
    subst ha
    subst hb
    have h1 : (0 : ℝ) < Real.sqrt (sumSquares a : ℝ) :=
      Real.sqrt_pos.mpr
        (by exact_mod_cast lt_of_le_of_ne (sumSquares_nonneg a) (Ne.symm hna))
    have h2 : (0 : ℝ) < Real.sqrt (sumSquares b : ℝ) :=
      Real.sqrt_pos.mpr
        (by exact_mod_cast lt_of_le_of_ne (sumSquares_nonneg b) (Ne.symm hnb))
    refine ⟨ne_of_gt (mul_pos h1 h2), ?_⟩
    simp only [calculateCosineSimilarity]
    rw [if_neg (fun h => h hlen), if_neg (by rw [not_or]; exact ⟨hna, hnb⟩)]

/-- Witness for C10 on concrete vectors `[1]` and `[2]`. -/
theorem claim_C10_witness :
    Real.sqrt (sumSquares [1] : ℝ) * Real.sqrt (sumSquares [2] : ℝ) ≠ 0 ∧
    calculateCosineSimilarity (some [1]) (some [2]) =
      (dotProduct [1] [2] : ℝ) /
        (Real.sqrt (sumSquares [1] : ℝ) * Real.sqrt (sumSquares [2] : ℝ)) :=
  (claim_C10_cosine_total (some [1]) (some [2])).2.2.2 [1] [2] rfl rfl rfl
    (by norm_num [sumSquares, dotProduct])
    (by norm_num [sumSquares, dotProduct])

end Summarizely
